import Mathlib

/-!
Verification development for the BoiledEgg microservice classification engine
(`boiledegg_handler.py`, consumed by `main.py`).

The engine's core is `BoiledEggHandler.process_multiple_properties` (classify)
and `BoiledEggHandler.process_multiple_properties_batch` (classifyBatch).
We embed them shallowly:

* molecular parsing and descriptor computation (RDKit `Chem.MolFromSmiles`,
  `Descriptors.TPSA`, `Descriptors.MolLogP`) are an external capability,
  modelled by a `DescriptorSource` record over an abstract molecule type;
* shapely's `Point.within(Polygon)` is modelled by an even-odd
  point-in-polygon test restricted to the interior (GEOS `within` excludes
  the boundary of the polygon);
* Python floats are modelled by `ℚ`; `round(x, 2)` is Python's
  round-half-to-even at two decimals;
* Python dicts keyed by strings are insertion-ordered association lists;
* a raised exception escaping a function is `Except.error`, a returned value
  is `Except.ok`; the handler state (`self`) is threaded explicitly to record
  that the methods never mutate it.
-/

namespace BoiledEgg

/-! ## Geometry: shapely `Point.within(Polygon)` -/

/-- A point in (TPSA, WLogP) space, modelled with exact rationals. -/
def Pt : Type := ℚ × ℚ

/-- A polygon is its ordered vertex list; shapely closes the ring implicitly. -/
def Polygon : Type := List (ℚ × ℚ)

/-- The closed edge list of a polygon: consecutive vertices plus the closing
edge from the last vertex back to the first. -/
def polyEdges (poly : Polygon) : List ((ℚ × ℚ) × (ℚ × ℚ)) :=
  match poly with
  | [] => []
  | v :: _ => poly.zip (poly.tail ++ [v])

/-- `p` lies on the closed segment from `a` to `b`. -/
def onSegment (p a b : ℚ × ℚ) : Bool :=
  decide ((b.1 - a.1) * (p.2 - a.2) = (b.2 - a.2) * (p.1 - a.1)) &&
  decide (min a.1 b.1 ≤ p.1) && decide (p.1 ≤ max a.1 b.1) &&
  decide (min a.2 b.2 ≤ p.2) && decide (p.2 ≤ max a.2 b.2)

/-- `p` lies on the boundary of the polygon (on some closed edge). -/
def onBoundaryB (p : ℚ × ℚ) (poly : Polygon) : Bool :=
  (polyEdges poly).any (fun e => onSegment p e.1 e.2)

/-- The horizontal ray from `p` to the right crosses the open edge `(a, b)`
(standard even-odd crossing rule, half-open in `y` so a ray through a vertex
is counted once). -/
def rayCrosses (p a b : ℚ × ℚ) : Bool :=
  decide ((a.2 > p.2) ≠ (b.2 > p.2)) &&
  decide (p.1 < a.1 + (b.1 - a.1) * (p.2 - a.2) / (b.2 - a.2))

/-- Even-odd (ray casting) point-in-polygon test: the number of edges crossed
by the rightward horizontal ray is odd. -/
def insideEO (p : ℚ × ℚ) (poly : Polygon) : Bool :=
  ((polyEdges poly).filter (fun e => rayCrosses p e.1 e.2)).length % 2 == 1

/-- Models shapely `Point.within(Polygon)` as called at
`boiledegg_handler.py` lines 41 and 43: true iff the point lies in the
interior of the polygon.  GEOS `within` requires the point to meet the
interior of the other geometry, so a point exactly on the boundary is NOT
within the polygon. -/
def within (p : ℚ × ℚ) (poly : Polygon) : Bool :=
  insideEO p poly && !onBoundaryB p poly

/-- A concrete polygon used to exercise the containment test. -/
def unitSquare : Polygon := [(0, 0), (1, 0), (1, 1), (0, 1)]

/-! ## Python `round(x, 2)` -/

/-- Round a rational to the nearest integer, ties to even (Python 3 `round`
semantics on floats, ignoring binary-representation error). -/
def roundHalfEven (q : ℚ) : ℤ :=
  let f : ℤ := ⌊q⌋
  let frac : ℚ := q - f
  if frac < 1 / 2 then f
  else if 1 / 2 < frac then f + 1
  else if Even f then f else f + 1

/-- Python `round(x, 2)`: round to two decimal places. -/
def round2 (q : ℚ) : ℚ := (roundHalfEven (q * 100) : ℚ) / 100

/-! ## External descriptor source (RDKit) -/

/-- The external descriptor capability consumed by the engine
(`Chem.MolFromSmiles`, `Descriptors.TPSA`, `Descriptors.MolLogP`), over an
abstract molecule type `μ`.  `molFromSmiles` returns `none` exactly when
RDKit fails to parse the SMILES (Python `None`).  `TPSA` takes the
`includeSandP` flag as its Boolean argument. -/
structure DescriptorSource (μ : Type) where
  molFromSmiles : String → Option μ
  TPSA : μ → Bool → ℚ
  MolLogP : μ → ℚ

/-! ## Handler state and result data model -/

/-- The state of a `BoiledEggHandler` after `__init__`/`_load_models`: the
two polygon models (`self.models["BBB"]`, `self.models["GIA"]`); the
`"TPSA"`/`"WLogP"` slots of `self.models` stay `None` and are never read.
The vertex data (`BoiledEggBBB.ml_tensor`, `BoiledEggGIA.ml_tensor`) lives in
the external `boiled_egg` package, so the polygons are parameters here. -/
structure Handler where
  modelBBB : Polygon
  modelGIA : Polygon

/-- `BoiledEggHandler.AVAILABLE_PROPERTIES`. -/
def AVAILABLE_PROPERTIES : List String := ["BBB", "GIA", "TPSA", "WLogP"]

/-- A Python value stored in the `batch_preds` dict: shapely containment
results are `bool`s, descriptor values are floats. -/
inductive PyVal where
  | pyBool (b : Bool)
  | pyFloat (q : ℚ)
deriving DecidableEq, Repr

/-- Python `float(...)` as applied to a `batch_preds` entry:
`float(True) = 1.0`, `float(False) = 0.0`, floats unchanged. -/
def pyFloatOf : PyVal → ℚ
  | .pyBool b => if b then 1 else 0
  | .pyFloat q => q

/-- The per-property record built at `boiledegg_handler.py` lines 57–62. -/
structure PropertyResult where
  property : String
  status : String
  results : Option ℚ
  error : Option String
deriving DecidableEq, Repr

/-- The per-compound record (`res_entry` at lines 49–54, or the error object
at line 67).  `results` is a Python dict: an insertion-ordered association
list from property name to `PropertyResult`. -/
structure CompoundResult where
  smiles : String
  status : String
  results : List (String × PropertyResult)
  error : Option String
deriving DecidableEq, Repr

/-- The dynamically-typed value returned by `process_multiple_properties`:
the empty list `[]` (line 22), a bare dict (line 63), or a one-element list
wrapping a dict (line 67). -/
inductive PMPReturn where
  | emptyList
  | record (r : CompoundResult)
  | errorList (r : CompoundResult)
deriving DecidableEq, Repr

/-- Python dict assignment `d[k] = v` on an insertion-ordered association
list: overwrite in place if the key is present (keeping its position), else
append at the end. -/
def dictInsert {α : Type} (d : List (String × α)) (k : String) (v : α) :
    List (String × α) :=
  match d with
  | [] => [(k, v)]
  | kv :: rest => if kv.1 = k then (k, v) :: rest else kv :: dictInsert rest k v

/-- Python dict indexing `d[k]` on an insertion-ordered association list:
the value of the entry with key `k`, or `none` (a `KeyError`) if absent. -/
def dictLookup {α : Type} (k : String) : List (String × α) → Option α
  | [] => none
  | kv :: rest => if kv.1 = k then some kv.2 else dictLookup k rest

/-- The `for prop in valid_props` loop at lines 56–62: look up
`batch_preds[prop]` (a missing key raises `KeyError`, caught by the enclosing
`try`), apply `float`, and store the `PropertyResult` into the `results`
dict. -/
def buildResults (bp : List (String × PyVal)) :
    List String → List (String × PropertyResult) →
    Except String (List (String × PropertyResult))
  | [], acc => .ok acc
  | prop :: rest, acc =>
    match dictLookup prop bp with
    | none => .error ("KeyError: " ++ prop)
    | some v =>
      buildResults bp rest
        (dictInsert acc prop
          { property := prop, status := "success",
            results := some (pyFloatOf v), error := none })

/-- The `except Exception as e` branch at lines 65–67: build an error dict
and wrap it in a one-element list. -/
def exceptBranch (smi e : String) : PMPReturn :=
  .errorList { smiles := smi, status := "error", results := [], error := some e }

/-- The `batch_preds` dict built at `boiledegg_handler.py` lines 39–47: one
conditional assignment per supported property, in source order (BBB, GIA,
TPSA, WLogP).  Containment results are stored as Python `bool`s, descriptor
values as floats. -/
def batchPreds (h : Handler) (valid_props : List String) (point : ℚ × ℚ)
    (tpsa wlogp : ℚ) : List (String × PyVal) :=
  let bp0 : List (String × PyVal) := []
  let bp1 := if "BBB" ∈ valid_props then
      dictInsert bp0 "BBB" (.pyBool (within point h.modelBBB)) else bp0
  let bp2 := if "GIA" ∈ valid_props then
      dictInsert bp1 "GIA" (.pyBool (within point h.modelGIA)) else bp1
  let bp3 := if "TPSA" ∈ valid_props then
      dictInsert bp2 "TPSA" (.pyFloat tpsa) else bp2
  if "WLogP" ∈ valid_props then
    dictInsert bp3 "WLogP" (.pyFloat wlogp) else bp3

/-- `BoiledEggHandler.process_multiple_properties` (lines 20–67), with the
handler state threaded through (the method never assigns to `self`, so every
exit returns `h` unchanged).  The overall outcome is `Except`: `.error`
models an exception escaping the method.

Control flow, following the source:
* `if not smi: return []` — the empty string is the only falsy string;
* `valid_props` filters the request against `AVAILABLE_PROPERTIES`;
* `mol = Chem.MolFromSmiles(smi)`; when `mol is None` the code only prints a
  warning and falls through, so `Descriptors.TPSA(mol, includeSandP=True)`
  at line 33 is invoked on `None` and raises an `ArgumentError` — lines
  33–35 are OUTSIDE the `try` that starts at line 36, so the exception
  escapes the method;
* otherwise TPSA and logP are rounded to 2 decimals, the point is built,
  `batch_preds` is filled per requested property, and the `results` dict is
  assembled; any exception in the `try` body is converted by
  `exceptBranch`. -/
def process_multiple_properties {μ : Type} (h : Handler)
    (ds : DescriptorSource μ) (smi : String) (property_list : List String) :
    Handler × Except String PMPReturn :=
  if smi = "" then (h, .ok .emptyList)
  else
    let valid_props := property_list.filter (fun p => p ∈ AVAILABLE_PROPERTIES)
    match ds.molFromSmiles smi with
    | none => (h, .error "ArgumentError")
    | some mol =>
      let tpsa := round2 (ds.TPSA mol true)
      let wlogp := round2 (ds.MolLogP mol)
      let point : ℚ × ℚ := (tpsa, wlogp)
      match buildResults (batchPreds h valid_props point tpsa wlogp) valid_props [] with
      | .ok resMap =>
        (h, .ok (.record { smiles := smi, status := "success",
                           results := resMap, error := none }))
      | .error e => (h, .ok (exceptBranch smi e))

/-- `BoiledEggHandler.process_multiple_properties_batch` (lines 69–74): a
plain loop appending each per-compound result; an exception raised by
`process_multiple_properties` escapes the loop and the whole method (the
partial `res_ls` is lost). -/
def process_multiple_properties_batch {μ : Type} (h : Handler)
    (ds : DescriptorSource μ) (smiles_list : List String)
    (property_list : List String) :
    Handler × Except String (List PMPReturn) :=
  match smiles_list with
  | [] => (h, .ok [])
  | smi :: rest =>
    match process_multiple_properties h ds smi property_list with
    | (h1, .error e) => (h1, .error e)
    | (h1, .ok r) =>
      match process_multiple_properties_batch h1 ds rest property_list with
      | (h2, .error e) => (h2, .error e)
      | (h2, .ok rs) => (h2, .ok (r :: rs))

/-- The `smiles` field of a returned value limited to the shape the spec's
`CompoundResult` has: only a bare dict carries a top-level `smiles` field. -/
def smilesOf : PMPReturn → Option String
  | .record r => some r.smiles
  | _ => none

/-- `result.get("status")` as performed by `predict_property` in `main.py`
line 70: succeeds on a dict, raises `AttributeError` on a list (Python lists
have no `.get`). -/
def resultGetStatus : PMPReturn → Except String (Option String)
  | .record r => .ok (some r.status)
  | _ => .error "AttributeError: list object has no attribute get"

/-- The Python type of the returned value: `dict` for the success shape,
`list` for the empty-input and except-branch shapes. -/
def pyTypeOf : PMPReturn → String
  | .record _ => "dict"
  | _ => "list"

/-! ## Concrete instances for witnesses and counterexamples -/

/-- A concrete descriptor source over `μ := ℕ`: parses `"CCO"` (ethanol,
TPSA 20.23, logP −0.0014) and `"c1ccccc1"` (benzene, TPSA 0, logP 1.6866);
every other string is unparseable. -/
def demoDS : DescriptorSource ℕ where
  molFromSmiles s := if s = "CCO" then some 0
                     else if s = "c1ccccc1" then some 1 else none
  TPSA m _ := if m = 0 then 20.23 else 0
  MolLogP m := if m = 0 then -0.0014 else 1.6866

/-- A concrete handler whose two boundary models are the unit square. -/
def demoHandler : Handler where
  modelBBB := unitSquare
  modelGIA := unitSquare

/-- A descriptor source whose only molecule maps to the point `(1/2, 0)`,
which lies exactly on the bottom edge of `unitSquare`. -/
def edgeDS : DescriptorSource ℕ where
  molFromSmiles s := if s = "CCO" then some 0 else none
  TPSA _ _ := 1 / 2
  MolLogP _ := 0

/-! ## Auxiliary notions used to state and prove the claims -/

/-- Keep the first occurrence of each element, dropping later duplicates,
skipping elements of `seen` (auxiliary accumulator form). -/
def firstDedupAux (seen : List String) : List String → List String
  | [] => []
  | k :: ks =>
    if k ∈ seen then firstDedupAux seen ks
    else k :: firstDedupAux (k :: seen) ks

/-- Keep the first occurrence of each element of a list, dropping later
duplicates (the order a Python dict keyed by the list's elements would
retain). -/
def firstDedup (l : List String) : List String := firstDedupAux [] l

/-- The per-property success record the `for prop in valid_props` loop
stores. -/
def successResult (p : String) (v : ℚ) : PropertyResult :=
  { property := p, status := "success", results := some v, error := none }

/-- The numeric value the engine associates to a supported property, given
the handler's models, the constructed point and the rounded descriptors. -/
def propValue (h : Handler) (point : ℚ × ℚ) (tpsa wlogp : ℚ) (p : String) : ℚ :=
  if p = "BBB" then (if within point h.modelBBB then 1 else 0)
  else if p = "GIA" then (if within point h.modelGIA then 1 else 0)
  else if p = "TPSA" then tpsa
  else wlogp

/-! ## Association-list (Python dict) lemmas -/

section DictLemmas

variable {α : Type}

lemma dictInsert_lookup (d : List (String × α)) (k k' : String) (v : α) :
    dictLookup k' (dictInsert d k v) = if k' = k then some v else dictLookup k' d := by
  induction d with
  | nil =>
    simp only [dictInsert, dictLookup]
    by_cases hk' : k = k'
    · rw [if_pos hk', if_pos hk'.symm]
    · rw [if_neg hk', if_neg (fun h => hk' h.symm)]
  | cons a d ih =>
    simp only [dictInsert]
    by_cases ha : a.1 = k
    · rw [if_pos ha]
      simp only [dictLookup]
      by_cases hk' : k' = k
      · rw [if_pos hk'.symm, if_pos hk']
      · rw [if_neg (fun h => hk' h.symm), if_neg hk',
          if_neg (fun (h : a.1 = k') => hk' (h ▸ ha))]
    · rw [if_neg ha]
      simp only [dictLookup]
      by_cases hk' : a.1 = k'
      · have hne : k' ≠ k := fun h => ha (h ▸ hk')
        rw [if_pos hk', if_pos hk', if_neg hne]
      · rw [if_neg hk', if_neg hk', ih]

lemma dictInsert_keys (d : List (String × α)) (k : String) (v : α) :
    (dictInsert d k v).map Prod.fst =
      if k ∈ d.map Prod.fst then d.map Prod.fst else d.map Prod.fst ++ [k] := by
  induction d with
  | nil => simp [dictInsert]
  | cons a d ih =>
    simp only [dictInsert]
    by_cases ha : a.1 = k
    · rw [if_pos ha]
      simp [ha]
    · rw [if_neg ha]
      simp only [List.map_cons, List.mem_cons, ih]
      by_cases hk : k ∈ d.map Prod.fst
      · rw [if_pos hk, if_pos (Or.inr hk)]
      · rw [if_neg hk, if_neg (by
          rintro (h | h)
          · exact ha h.symm
          · exact hk h)]
        simp

lemma dictInsert_keys_nodup (d : List (String × α)) (k : String) (v : α)
    (hnd : (d.map Prod.fst).Nodup) : ((dictInsert d k v).map Prod.fst).Nodup := by
  rw [dictInsert_keys]
  by_cases hk : k ∈ d.map Prod.fst
  · rwa [if_pos hk]
  · rw [if_neg hk]
    simp [List.nodup_append, hnd, hk]

lemma dictInsert_cancel (d : List (String × α)) (k : String) (v : α)
    (hv : dictLookup k d = some v) : dictInsert d k v = d := by
  induction d with
  | nil => simp [dictLookup] at hv
  | cons a d ih =>
    simp only [dictInsert]
    by_cases ha : a.1 = k
    · rw [if_pos ha]
      simp only [dictLookup, if_pos ha] at hv
      obtain ⟨a1, a2⟩ := a
      simp only at ha hv
      injection hv with hv2
      rw [ha, hv2]
    · rw [if_neg ha]
      simp only [dictLookup, if_neg ha] at hv
      rw [ih hv]

end DictLemmas

/-! ## `firstDedup` lemmas -/

section DedupLemmas

lemma firstDedupAux_congr (s1 s2 l : List String)
    (h : ∀ x, x ∈ s1 ↔ x ∈ s2) : firstDedupAux s1 l = firstDedupAux s2 l := by
  induction l generalizing s1 s2 with
  | nil => rfl
  | cons k ks ih =>
    simp only [firstDedupAux]
    by_cases hk : k ∈ s1
    · rw [if_pos hk, if_pos ((h k).mp hk), ih s1 s2 h]
    · rw [if_neg hk, if_neg (fun h2 => hk ((h k).mpr h2)),
        ih (k :: s1) (k :: s2) (by intro x; simp [h x])]

lemma mem_firstDedupAux (x : String) (seen l : List String) :
    x ∈ firstDedupAux seen l ↔ x ∈ l ∧ x ∉ seen := by
  induction l generalizing seen with
  | nil => simp [firstDedupAux]
  | cons k ks ih =>
    simp only [firstDedupAux]
    by_cases hk : k ∈ seen
    · rw [if_pos hk, ih]
      constructor
      · rintro ⟨h1, h2⟩
        exact ⟨List.mem_cons_of_mem k h1, h2⟩
      · rintro ⟨h1, h2⟩
        rcases List.mem_cons.mp h1 with h1 | h1
        · exact absurd (h1 ▸ hk) h2
        · exact ⟨h1, h2⟩
    · rw [if_neg hk]
      simp only [List.mem_cons, ih, List.mem_cons, not_or]
      constructor
      · rintro (h | ⟨h1, h2, h3⟩)
        · exact ⟨Or.inl h, h ▸ hk⟩
        · exact ⟨Or.inr h1, h3⟩
      · rintro ⟨h1 | h1, h2⟩
        · exact Or.inl h1
        · by_cases hx : x = k
          · exact Or.inl hx
          · exact Or.inr ⟨h1, hx, h2⟩

lemma mem_firstDedup (x : String) (l : List String) :
    x ∈ firstDedup l ↔ x ∈ l := by
  simp [firstDedup, mem_firstDedupAux]

lemma firstDedupAux_nodup (l seen : List String) : (firstDedupAux seen l).Nodup := by
  induction l generalizing seen with
  | nil => simp [firstDedupAux]
  | cons k ks ih =>
    simp only [firstDedupAux]
    by_cases hk : k ∈ seen
    · rw [if_pos hk]; exact ih seen
    · rw [if_neg hk]
      refine List.nodup_cons.mpr ⟨?_, ih (k :: seen)⟩
      rw [mem_firstDedupAux]
      rintro ⟨h1, h2⟩
      exact h2 (List.mem_cons_self k seen)

lemma firstDedupAux_filter_notseen (q : String → Bool) (p : String)
    (l seen : List String) (hq : q p = false) :
    (firstDedupAux (p :: seen) l).filter q = (firstDedupAux seen l).filter q := by
  induction l generalizing seen with
  | nil => rfl
  | cons x xs ih =>
    by_cases hxp : x = p
    · subst hxp
      simp only [firstDedupAux, if_pos (List.mem_cons_self x seen)]
      by_cases hx : x ∈ seen
      · rw [if_pos hx, firstDedupAux_congr (x :: seen) seen xs (by
          intro y
          constructor
          · intro hy
            rcases List.mem_cons.mp hy with h | h
            · exact h ▸ hx
            · exact h
          · exact fun hy => List.mem_cons_of_mem x hy)]
      · rw [if_neg hx]
        simp [List.filter_cons, hq]
    · simp only [firstDedupAux, List.mem_cons]
      by_cases hx : x ∈ seen
      · rw [if_pos (Or.inr hx), if_pos hx]
        exact ih seen
      · rw [if_neg (by rintro (h | h); exacts [hxp h, hx h]), if_neg hx]
        simp only [List.filter_cons]
        rw [firstDedupAux_congr (x :: p :: seen) (p :: x :: seen) xs
          (by intro y; simp [List.mem_cons]; tauto), ih (x :: seen)]

lemma firstDedupAux_filter (q : String → Bool) (l seen : List String) :
    firstDedupAux seen (l.filter q) = (firstDedupAux seen l).filter q := by
  induction l generalizing seen with
  | nil => rfl
  | cons p rest ih =>
    by_cases hq : q p = true
    · simp only [List.filter_cons, if_pos hq, firstDedupAux]
      by_cases hp : p ∈ seen
      · rw [if_pos hp, if_pos hp, ih seen]
      · rw [if_neg hp, if_neg hp]
        simp only [List.filter_cons, if_pos hq]
        rw [ih (p :: seen)]
    · have hq' : q p = false := by simpa using hq
      simp only [List.filter_cons, if_neg hq, firstDedupAux]
      by_cases hp : p ∈ seen
      · rw [if_pos hp, ih seen]
      · rw [if_neg hp]
        simp only [List.filter_cons, if_neg hq]
        rw [ih seen]
        exact (firstDedupAux_filter_notseen q p rest seen hq').symm

lemma firstDedup_filter (q : String → Bool) (l : List String) :
    firstDedup (l.filter q) = (firstDedup l).filter q :=
  firstDedupAux_filter q l []

end DedupLemmas

/-! ## Folding `dictInsert` over a key list -/

section FoldLemmas

variable {α : Type}

lemma foldl_dictInsert_lookup (f : String → α) (props : List String)
    (acc : List (String × α)) (k : String) :
    dictLookup k (props.foldl (fun a p => dictInsert a p (f p)) acc) =
      if k ∈ props then some (f k) else dictLookup k acc := by
  induction props generalizing acc with
  | nil => simp
  | cons p rest ih =>
    simp only [List.foldl_cons, ih, List.mem_cons]
    by_cases hk : k ∈ rest
    · rw [if_pos hk, if_pos (Or.inr hk)]
    · rw [if_neg hk, dictInsert_lookup]
      by_cases hkp : k = p
      · rw [if_pos hkp, if_pos (Or.inl hkp), hkp]
      · rw [if_neg hkp, if_neg (by rintro (h | h); exacts [hkp h, hk h])]

lemma foldl_dictInsert_keys (f : String → α) (props : List String)
    (acc : List (String × α)) :
    (props.foldl (fun a p => dictInsert a p (f p)) acc).map Prod.fst =
      acc.map Prod.fst ++ firstDedupAux (acc.map Prod.fst) props := by
  induction props generalizing acc with
  | nil => simp [firstDedupAux]
  | cons p rest ih =>
    simp only [List.foldl_cons, ih, firstDedupAux]
    by_cases hp : p ∈ acc.map Prod.fst
    · rw [dictInsert_keys, if_pos hp, if_pos hp]
    · rw [dictInsert_keys, if_neg hp, if_neg hp,
        firstDedupAux_congr (acc.map Prod.fst ++ [p]) (p :: acc.map Prod.fst) rest
          (by intro x; simp [or_comm])]
      simp

lemma foldl_dictInsert_dedup (f : String → α) (props : List String) :
    ∀ (seen : List String) (acc : List (String × α)),
      (∀ p ∈ seen, dictLookup p acc = some (f p)) →
      props.foldl (fun a p => dictInsert a p (f p)) acc =
        (firstDedupAux seen props).foldl (fun a p => dictInsert a p (f p)) acc := by
  induction props with
  | nil => intro seen acc _; rfl
  | cons p rest ih =>
    intro seen acc hseen
    simp only [List.foldl_cons, firstDedupAux]
    by_cases hp : p ∈ seen
    · rw [if_pos hp, dictInsert_cancel _ _ _ (hseen p hp)]
      exact ih seen acc hseen
    · rw [if_neg hp]
      simp only [List.foldl_cons]
      refine ih (p :: seen) (dictInsert acc p (f p)) ?_
      intro q hq
      rw [dictInsert_lookup]
      by_cases hqp : q = p
      · rw [if_pos hqp, hqp]
      · rw [if_neg hqp]
        rcases List.mem_cons.mp hq with h | h
        · exact absurd h hqp
        · exact hseen q h

lemma foldl_dictInsert_firstDedup (f : String → α) (props : List String) :
    (firstDedup props).foldl (fun a p => dictInsert a p (f p)) [] =
      props.foldl (fun a p => dictInsert a p (f p)) [] :=
  (foldl_dictInsert_dedup f props [] [] (by simp)).symm

end FoldLemmas

/-! ## Characterizing the engine's success path -/

lemma buildResults_ok (bp : List (String × PyVal)) (props : List String)
    (acc : List (String × PropertyResult))
    (h : ∀ p ∈ props, (dictLookup p bp).isSome) :
    buildResults bp props acc =
      .ok (props.foldl
        (fun a p => dictInsert a p
          (successResult p (pyFloatOf ((dictLookup p bp).getD (.pyFloat 0))))) acc) := by
  induction props generalizing acc with
  | nil => rfl
  | cons p rest ih =>
    obtain ⟨v, hv⟩ := Option.isSome_iff_exists.mp (h p (List.mem_cons_self p rest))
    simp only [buildResults, hv, List.foldl_cons, Option.getD_some, successResult]
    exact ih _ (fun q hq => h q (List.mem_cons_of_mem p hq))

/-- The `PyVal` stored in `batch_preds` for each requested supported
property. -/
def batchPredsVal (h : Handler) (point : ℚ × ℚ) (tpsa wlogp : ℚ) (p : String) : PyVal :=
  if p = "BBB" then .pyBool (within point h.modelBBB)
  else if p = "GIA" then .pyBool (within point h.modelGIA)
  else if p = "TPSA" then .pyFloat tpsa
  else .pyFloat wlogp

lemma batchPreds_lookup (h : Handler) (vp : List String) (point : ℚ × ℚ)
    (tpsa wlogp : ℚ) (p : String) (hp : p ∈ vp) (hav : p ∈ AVAILABLE_PROPERTIES) :
    dictLookup p (batchPreds h vp point tpsa wlogp) =
      some (batchPredsVal h point tpsa wlogp p) := by
  simp only [AVAILABLE_PROPERTIES, List.mem_cons, List.not_mem_nil, or_false] at hav
  unfold batchPreds batchPredsVal
  rcases hav with h1 | h1 | h1 | h1 <;> subst h1 <;>
    by_cases hw : "WLogP" ∈ vp <;> by_cases ht : "TPSA" ∈ vp <;>
    by_cases hg : "GIA" ∈ vp <;>
    simp [hp, hw, ht, hg, dictInsert_lookup, dictLookup]

lemma pyFloatOf_batchPredsVal (h : Handler) (point : ℚ × ℚ) (tpsa wlogp : ℚ)
    (p : String) :
    pyFloatOf (batchPredsVal h point tpsa wlogp p) = propValue h point tpsa wlogp p := by
  unfold batchPredsVal propValue
  split_ifs <;> simp_all [pyFloatOf]

/-- The success record `res_entry` as a function of the inputs: smiles,
status `"success"`, no error, and one `results` entry per requested
supported property. -/
def classifyRecord {μ : Type} (h : Handler) (ds : DescriptorSource μ)
    (smi : String) (P : List String) (mol : μ) : CompoundResult :=
  { smiles := smi, status := "success",
    results :=
      (P.filter (fun p => p ∈ AVAILABLE_PROPERTIES)).foldl
        (fun a p => dictInsert a p (successResult p
          (propValue h (round2 (ds.TPSA mol true), round2 (ds.MolLogP mol))
            (round2 (ds.TPSA mol true)) (round2 (ds.MolLogP mol)) p))) [],
    error := none }

/-- Master characterization of the success path of
`process_multiple_properties`: for a nonempty SMILES that the descriptor
source parses, the method returns the handler unchanged together with a bare
success dict whose `results` mapping is the `dictInsert`-fold of the
filtered property list, each entry carrying the property's `propValue`. -/
lemma process_success {μ : Type} (h : Handler) (ds : DescriptorSource μ)
    (smi : String) (P : List String) (mol : μ)
    (hs : smi ≠ "") (hm : ds.molFromSmiles smi = some mol) :
    process_multiple_properties h ds smi P =
      (h, .ok (.record (classifyRecord h ds smi P mol))) := by
  unfold classifyRecord
  have hav : ∀ p ∈ P.filter (fun p => p ∈ AVAILABLE_PROPERTIES),
      p ∈ AVAILABLE_PROPERTIES := by
    intro p hp
    simpa using (List.mem_filter.mp hp).2
  have hbuild := buildResults_ok
    (batchPreds h (P.filter (fun p => p ∈ AVAILABLE_PROPERTIES))
      (round2 (ds.TPSA mol true), round2 (ds.MolLogP mol))
      (round2 (ds.TPSA mol true)) (round2 (ds.MolLogP mol)))
    (P.filter (fun p => p ∈ AVAILABLE_PROPERTIES)) []
    (fun p hp => by
      rw [batchPreds_lookup _ _ _ _ _ p hp (hav p hp)]
      rfl)
  simp only [process_multiple_properties, if_neg hs, hm, hbuild]
  refine congrArg _ (congrArg _ (congrArg _ ?_))
  refine congrArg (fun z => CompoundResult.mk smi "success" z none) ?_
  refine List.foldl_ext _ _ [] ?_
  intro acc p hp
  rw [batchPreds_lookup _ _ _ _ _ p hp (hav p hp), Option.getD_some,
    pyFloatOf_batchPredsVal]

/-- The empty-string path: `if not smi: return []` (line 22). -/
lemma process_empty {μ : Type} (h : Handler) (ds : DescriptorSource μ)
    (P : List String) :
    process_multiple_properties h ds "" P = (h, .ok .emptyList) := by
  simp [process_multiple_properties]

/-- The parse-failure path: for a nonempty SMILES the source cannot parse,
`Descriptors.TPSA(None, ...)` at line 33 raises outside the `try`, so the
method raises. -/
lemma process_parse_failure {μ : Type} (h : Handler) (ds : DescriptorSource μ)
    (smi : String) (P : List String)
    (hs : smi ≠ "") (hm : ds.molFromSmiles smi = none) :
    process_multiple_properties h ds smi P = (h, .error "ArgumentError") := by
  simp [process_multiple_properties, if_neg hs, hm]

/-- `process_multiple_properties` never mutates the handler state: every
exit returns `self` unchanged. -/
lemma process_fst {μ : Type} (h : Handler) (ds : DescriptorSource μ)
    (smi : String) (P : List String) :
    (process_multiple_properties h ds smi P).1 = h := by
  by_cases hs : smi = ""
  · subst hs; rw [process_empty]
  · cases hm : ds.molFromSmiles smi with
    | none => rw [process_parse_failure h ds smi P hs hm]
    | some mol => rw [process_success h ds smi P mol hs hm]

/-- Nor does the batch loop. -/
lemma batch_fst {μ : Type} (h : Handler) (ds : DescriptorSource μ)
    (l P : List String) :
    (process_multiple_properties_batch h ds l P).1 = h := by
  induction l generalizing h with
  | nil => rfl
  | cons s rest ih =>
    rcases hp : process_multiple_properties h ds s P with ⟨h1, r⟩
    have hh1 : h1 = h := by
      have := process_fst h ds s P
      rw [hp] at this
      exact this
    rw [hh1] at hp
    cases r with
    | error e => simp [process_multiple_properties_batch, hp]
    | ok v =>
      rcases hb : process_multiple_properties_batch h ds rest P with ⟨h2, rr⟩
      have hh2 : h2 = h := by
        have := ih h
        rw [hb] at this
        exact this
      rw [hh2] at hb
      cases rr <;> simp [process_multiple_properties_batch, hp, hb]

/-- One step of the batch loop when the head succeeds. -/
lemma batch_cons_ok {μ : Type} (h : Handler) (ds : DescriptorSource μ)
    (s : String) (rest P : List String) (r : PMPReturn) (rs : List PMPReturn)
    (h1 : (process_multiple_properties h ds s P).2 = .ok r)
    (h2 : (process_multiple_properties_batch h ds rest P).2 = .ok rs) :
    (process_multiple_properties_batch h ds (s :: rest) P).2 = .ok (r :: rs) := by
  rcases hp : process_multiple_properties h ds s P with ⟨hh, rrr⟩
  have hhh : hh = h := by
    have := process_fst h ds s P
    rw [hp] at this
    exact this
  rw [hhh] at hp
  rw [hp] at h1
  simp only at h1
  rw [h1] at hp
  rcases hb : process_multiple_properties_batch h ds rest P with ⟨h2', rr2⟩
  have hh2 : h2' = h := by
    have := batch_fst h ds rest P
    rw [hb] at this
    exact this
  rw [hh2] at hb
  rw [hb] at h2
  simp only at h2
  rw [h2] at hb
  simp [process_multiple_properties_batch, hp, hb]

/-! ## Claims -/

/-- C1: the claim says that for every malformed (unparseable) SMILES,
`process_multiple_properties` returns a CompoundResult with status=error and
empty results, never raising past the engine boundary.  The code does NOT:
when `Chem.MolFromSmiles` returns `None` it only prints a warning, and
`Descriptors.TPSA(None, includeSandP=True)` at line 33 — outside the `try`
that only starts at line 36 — raises an uncaught `ArgumentError`.  This
theorem evaluates the code at the failing input `"C("`: the call raises
instead of returning an error record. -/
theorem C1_parse_failure_raises :
    demoDS.molFromSmiles "C(" = none ∧
    (process_multiple_properties demoHandler demoDS "C(" ["TPSA"]).2 =
      .error "ArgumentError" := by
  constructor
  · simp [demoDS]
  · simp [process_multiple_properties, demoDS]

/-- C2: the claim says any failure on batch input `i` is captured into the
`i`-th CompoundResult with status=error without affecting inputs `i+1..n`,
and that `classifyBatch(["CCO", "", "c1ccccc1"], {"TPSA"})` yields index 1
status=error and indices 0, 2 status=success.  The code does NOT: the empty
string at index 1 yields the bare empty list `[]` (line 22), not a
status=error CompoundResult, and a parse failure raises out of the loop and
aborts all later inputs, as the second conjunct shows for
`["C(", "CCO"]`. -/
theorem C2_batch_isolation_fails :
    (process_multiple_properties_batch demoHandler demoDS
        ["CCO", "", "c1ccccc1"] ["TPSA"]).2 =
      .ok [ .record { smiles := "CCO", status := "success",
                      results := [("TPSA", { property := "TPSA",
                                             status := "success",
                                             results := some 20.23,
                                             error := none })],
                      error := none },
            .emptyList,
            .record { smiles := "c1ccccc1", status := "success",
                      results := [("TPSA", { property := "TPSA",
                                             status := "success",
                                             results := some 0,
                                             error := none })],
                      error := none } ] ∧
    (process_multiple_properties_batch demoHandler demoDS ["C(", "CCO"]
        ["TPSA"]).2 = .error "ArgumentError" := by
  constructor
  · simp [process_multiple_properties_batch, process_multiple_properties,
      demoDS, demoHandler, AVAILABLE_PROPERTIES, batchPreds, buildResults,
      dictInsert, dictLookup, pyFloatOf, List.filter]
    norm_num [round2, roundHalfEven]
  · simp [process_multiple_properties_batch, process_multiple_properties,
      demoDS]

/-- C3: the claim says every empty or whitespace-only SMILES yields a
CompoundResult with status=error and empty results.  The code does NOT: for
the empty string, `if not smi: return []` (line 22) returns the bare empty
LIST, which is not a CompoundResult at all — it has no `status` or `smiles`
field, and the service layer's `result.get("status")` would raise an
`AttributeError` on it.  (A whitespace-only string is truthy in Python, so
it is not even caught by this check and flows into parsing.) -/
theorem C3_empty_smiles_not_error_record :
    (process_multiple_properties demoHandler demoDS "" ["TPSA"]).2 =
      .ok .emptyList ∧
    resultGetStatus .emptyList =
      .error "AttributeError: list object has no attribute get" ∧
    smilesOf .emptyList = none := by
  refine ⟨?_, rfl, rfl⟩
  simp [process_multiple_properties]

/-- C4 (counterexample): the claim says for EVERY input list the batch
returns one CompoundResult per input with matching `smiles` field.  At input
`[""]` the single entry is the bare empty list `[]`, which has no `smiles`
field, so the claim fails as stated. -/
theorem C4_counterexample :
    (process_multiple_properties_batch demoHandler demoDS [""] ["TPSA"]).2 =
      .ok [.emptyList] ∧
    smilesOf PMPReturn.emptyList = none := by
  refine ⟨?_, rfl⟩
  simp [process_multiple_properties_batch, process_multiple_properties]

/-- C4 (amended): for every input list whose entries are all nonempty and
parseable, `process_multiple_properties_batch` returns exactly
`len(smilesList)` results, and the `i`-th result's `smiles` field equals
`smilesList[i]` (order and count preserved). -/
theorem C4_batch_order_on_valid {μ : Type} (h : Handler)
    (ds : DescriptorSource μ) (smiles_list P : List String)
    (hv : ∀ s ∈ smiles_list, s ≠ "" ∧ (ds.molFromSmiles s).isSome) :
    ∃ rs, (process_multiple_properties_batch h ds smiles_list P).2 = .ok rs ∧
      rs.length = smiles_list.length ∧
      ∀ i (hi : i < rs.length) (hj : i < smiles_list.length),
        smilesOf (rs.get ⟨i, hi⟩) = some (smiles_list.get ⟨i, hj⟩) := by
  revert hv
  induction smiles_list with
  | nil => exact fun _ => ⟨[], rfl, rfl, fun i hi _ => absurd hi (by simp)⟩
  | cons s rest ih =>
    intro hv
    obtain ⟨hs, hsome⟩ := hv s (List.mem_cons_self s rest)
    obtain ⟨mol, hm⟩ := Option.isSome_iff_exists.mp hsome
    obtain ⟨rs, hrs, hlen, hidx⟩ := ih (fun t ht => hv t (List.mem_cons_of_mem s ht))
    refine ⟨.record (classifyRecord h ds s P mol) :: rs, ?_, by simp [hlen], ?_⟩
    · exact batch_cons_ok h ds s rest P _ rs
        (by rw [process_success h ds s P mol hs hm]) hrs
    · intro i hi hj
      cases i with
      | zero => simp [smilesOf, classifyRecord]
      | succ n =>
        simp only [List.get_cons_succ]
        exact hidx n (by simpa using hi) (by simpa using hj)

/-- C4 (witness): the amended theorem applied to the concrete batch
`["CCO", "c1ccccc1"]`. -/
theorem C4_witness :
    (∀ s ∈ (["CCO", "c1ccccc1"] : List String),
      s ≠ "" ∧ (demoDS.molFromSmiles s).isSome) ∧
    (∃ rs, (process_multiple_properties_batch demoHandler demoDS
        ["CCO", "c1ccccc1"] ["TPSA"]).2 = .ok rs ∧
      rs.length = (["CCO", "c1ccccc1"] : List String).length ∧
      ∀ i (hi : i < rs.length)
        (hj : i < (["CCO", "c1ccccc1"] : List String).length),
        smilesOf (rs.get ⟨i, hi⟩) =
          some ((["CCO", "c1ccccc1"] : List String).get ⟨i, hj⟩)) :=
  ⟨by decide,
   C4_batch_order_on_valid demoHandler demoDS ["CCO", "c1ccccc1"] ["TPSA"]
     (by decide)⟩

/-- C5 (counterexample): the claim says the containment test used for
BBB/GIA classification is boundary-inclusive.  It is not: the point
`(1/2, 0)` lies exactly on the bottom edge of `unitSquare`, yet `within`
(shapely's `Point.within`, interior containment) returns `false`, and a
compound whose descriptors land exactly on the boundary polygon's edge is
classified 0.0 (outside) for BBB. -/
theorem C5_counterexample :
    onBoundaryB (1/2, 0) unitSquare = true ∧
    within (1/2, 0) unitSquare = false ∧
    (process_multiple_properties demoHandler edgeDS "CCO" ["BBB"]).2 =
      .ok (.record { smiles := "CCO", status := "success",
                     results := [("BBB", { property := "BBB",
                                           status := "success",
                                           results := some 0,
                                           error := none })],
                     error := none }) := by
  refine ⟨?_, ?_, ?_⟩
  · norm_num [onBoundaryB, polyEdges, onSegment, unitSquare, List.any]
  · norm_num [within, insideEO, onBoundaryB, polyEdges, rayCrosses, onSegment,
      unitSquare, List.filter, List.any]
  · simp [process_multiple_properties, edgeDS, demoHandler,
      AVAILABLE_PROPERTIES, batchPreds, buildResults, dictInsert, dictLookup,
      pyFloatOf, List.filter]
    norm_num [round2, roundHalfEven, within, insideEO, onBoundaryB, polyEdges,
      rayCrosses, onSegment, unitSquare, List.filter, List.any]

/-- C5 (amended): the containment test used for BBB/GIA classification is
boundary-EXCLUSIVE: for every polygon and every point on its boundary,
`within` (shapely `Point.within`, i.e. interior containment) returns
`false` — a point exactly on an edge counts as outside. -/
theorem C5_within_boundary_exclusive (p : ℚ × ℚ) (poly : Polygon)
    (hb : onBoundaryB p poly = true) : within p poly = false := by
  simp [within, hb]

/-- C5 (witness): the amended theorem applied to the edge point `(1/2, 0)`
of `unitSquare`. -/
theorem C5_witness :
    onBoundaryB (1/2, 0) unitSquare = true ∧
    within (1/2, 0) unitSquare = false := by
  have hb : onBoundaryB ((1 : ℚ)/2, (0 : ℚ)) unitSquare = true := by
    norm_num [onBoundaryB, polyEdges, onSegment, unitSquare, List.any]
  exact ⟨hb, C5_within_boundary_exclusive (1/2, 0) unitSquare hb⟩

/-- C6: for every nonempty, parseable SMILES and every requested property
list, `process_multiple_properties` returns a success record whose `results`
key set equals the requested properties intersected with
`AVAILABLE_PROPERTIES` (unknown names silently dropped, no exception), every
per-property entry has status success, and an entirely-empty intersection
yields an empty results mapping with overall status still success. -/
theorem C6_valid_success_filtered_keys {μ : Type} (h : Handler)
    (ds : DescriptorSource μ) (smi : String) (P : List String) (mol : μ)
    (hs : smi ≠ "") (hm : ds.molFromSmiles smi = some mol) :
    (process_multiple_properties h ds smi P).2 =
      .ok (.record (classifyRecord h ds smi P mol)) ∧
    (classifyRecord h ds smi P mol).smiles = smi ∧
    (classifyRecord h ds smi P mol).status = "success" ∧
    (classifyRecord h ds smi P mol).error = none ∧
    (∀ k, (dictLookup k (classifyRecord h ds smi P mol).results).isSome ↔
      (k ∈ P ∧ k ∈ AVAILABLE_PROPERTIES)) ∧
    (∀ k pr, dictLookup k (classifyRecord h ds smi P mol).results = some pr →
      pr.status = "success") ∧
    ((∀ k ∈ P, k ∉ AVAILABLE_PROPERTIES) →
      (classifyRecord h ds smi P mol).results = []) := by
  refine ⟨by rw [process_success h ds smi P mol hs hm], rfl, rfl, rfl, ?_, ?_, ?_⟩
  · intro k
    simp only [classifyRecord, foldl_dictInsert_lookup]
    by_cases hk : k ∈ P.filter (fun p => p ∈ AVAILABLE_PROPERTIES)
    · rw [if_pos hk]
      have hmem := List.mem_filter.mp hk
      exact ⟨fun _ => ⟨hmem.1, by simpa using hmem.2⟩, fun _ => rfl⟩
    · rw [if_neg hk]
      constructor
      · intro hc
        exact absurd hc (by simp [dictLookup])
      · intro hc
        exact absurd (List.mem_filter.mpr ⟨hc.1, by simpa using hc.2⟩) hk
  · intro k pr hpr
    simp only [classifyRecord, foldl_dictInsert_lookup] at hpr
    split_ifs at hpr with hk
    · injection hpr with hpr
      rw [← hpr]
      rfl
    · simp [dictLookup] at hpr
  · intro hnone
    have hfil : P.filter (fun p => p ∈ AVAILABLE_PROPERTIES) = [] := by
      rw [List.filter_eq_nil_iff]
      intro a ha
      simpa using hnone a ha
    simp only [classifyRecord, hfil, List.foldl_nil]

/-- C6 (witness): the theorem applied to `"CCO"` with the request
`["TPSA", "MW"]`, whose unknown name `"MW"` is silently dropped. -/
theorem C6_witness :
    (("CCO" : String) ≠ "") ∧
    demoDS.molFromSmiles "CCO" = some 0 ∧
    ((process_multiple_properties demoHandler demoDS "CCO" ["TPSA", "MW"]).2 =
      .ok (.record (classifyRecord demoHandler demoDS "CCO" ["TPSA", "MW"] 0)) ∧
    (classifyRecord demoHandler demoDS "CCO" ["TPSA", "MW"] 0).smiles = "CCO" ∧
    (classifyRecord demoHandler demoDS "CCO" ["TPSA", "MW"] 0).status = "success" ∧
    (classifyRecord demoHandler demoDS "CCO" ["TPSA", "MW"] 0).error = none ∧
    (∀ k, (dictLookup k
        (classifyRecord demoHandler demoDS "CCO" ["TPSA", "MW"] 0).results).isSome ↔
      (k ∈ (["TPSA", "MW"] : List String) ∧ k ∈ AVAILABLE_PROPERTIES)) ∧
    (∀ k pr, dictLookup k
        (classifyRecord demoHandler demoDS "CCO" ["TPSA", "MW"] 0).results = some pr →
      pr.status = "success") ∧
    ((∀ k ∈ (["TPSA", "MW"] : List String), k ∉ AVAILABLE_PROPERTIES) →
      (classifyRecord demoHandler demoDS "CCO" ["TPSA", "MW"] 0).results = [])) :=
  ⟨by decide, by decide,
   C6_valid_success_filtered_keys demoHandler demoDS "CCO" ["TPSA", "MW"] 0
     (by decide) (by decide)⟩

/-- C7: for every nonempty, parseable SMILES the engine rounds TPSA
(computed with `includeSandP=True`) and logP to 2 decimal places, builds the
point from the ROUNDED values, and each evaluated property's numeric value
is: BBB/GIA containment of that point in the respective model coerced to
1/0, and the rounded TPSA/WLogP value itself. -/
theorem C7_rounded_descriptors_and_values {μ : Type} (h : Handler)
    (ds : DescriptorSource μ) (smi : String) (P : List String) (mol : μ)
    (hs : smi ≠ "") (hm : ds.molFromSmiles smi = some mol) :
    (process_multiple_properties h ds smi P).2 =
      .ok (.record (classifyRecord h ds smi P mol)) ∧
    ("TPSA" ∈ P → dictLookup "TPSA" (classifyRecord h ds smi P mol).results =
      some (successResult "TPSA" (round2 (ds.TPSA mol true)))) ∧
    ("WLogP" ∈ P → dictLookup "WLogP" (classifyRecord h ds smi P mol).results =
      some (successResult "WLogP" (round2 (ds.MolLogP mol)))) ∧
    ("BBB" ∈ P → dictLookup "BBB" (classifyRecord h ds smi P mol).results =
      some (successResult "BBB"
        (if within (round2 (ds.TPSA mol true), round2 (ds.MolLogP mol))
            h.modelBBB then 1 else 0))) ∧
    ("GIA" ∈ P → dictLookup "GIA" (classifyRecord h ds smi P mol).results =
      some (successResult "GIA"
        (if within (round2 (ds.TPSA mol true), round2 (ds.MolLogP mol))
            h.modelGIA then 1 else 0))) := by
  refine ⟨by rw [process_success h ds smi P mol hs hm], ?_, ?_, ?_, ?_⟩ <;>
    intro hP <;>
    simp only [classifyRecord, foldl_dictInsert_lookup] <;>
    rw [if_pos (List.mem_filter.mpr ⟨hP, by simp [AVAILABLE_PROPERTIES]⟩)] <;>
    simp [propValue]

/-- C7 (witness): the theorem applied to `"CCO"` with all four properties
requested. -/
theorem C7_witness :
    (("CCO" : String) ≠ "") ∧
    demoDS.molFromSmiles "CCO" = some 0 ∧
    ((process_multiple_properties demoHandler demoDS "CCO"
        AVAILABLE_PROPERTIES).2 =
      .ok (.record (classifyRecord demoHandler demoDS "CCO"
        AVAILABLE_PROPERTIES 0)) ∧
    ("TPSA" ∈ AVAILABLE_PROPERTIES → dictLookup "TPSA"
        (classifyRecord demoHandler demoDS "CCO" AVAILABLE_PROPERTIES 0).results =
      some (successResult "TPSA" (round2 (demoDS.TPSA 0 true)))) ∧
    ("WLogP" ∈ AVAILABLE_PROPERTIES → dictLookup "WLogP"
        (classifyRecord demoHandler demoDS "CCO" AVAILABLE_PROPERTIES 0).results =
      some (successResult "WLogP" (round2 (demoDS.MolLogP 0)))) ∧
    ("BBB" ∈ AVAILABLE_PROPERTIES → dictLookup "BBB"
        (classifyRecord demoHandler demoDS "CCO" AVAILABLE_PROPERTIES 0).results =
      some (successResult "BBB"
        (if within (round2 (demoDS.TPSA 0 true), round2 (demoDS.MolLogP 0))
            demoHandler.modelBBB then 1 else 0))) ∧
    ("GIA" ∈ AVAILABLE_PROPERTIES → dictLookup "GIA"
        (classifyRecord demoHandler demoDS "CCO" AVAILABLE_PROPERTIES 0).results =
      some (successResult "GIA"
        (if within (round2 (demoDS.TPSA 0 true), round2 (demoDS.MolLogP 0))
            demoHandler.modelGIA then 1 else 0)))) :=
  ⟨by decide, by decide,
   C7_rounded_descriptors_and_values demoHandler demoDS "CCO"
     AVAILABLE_PROPERTIES 0 (by decide) (by decide)⟩

/-- C8: `process_multiple_properties` is deterministic and stateless: the
handler is returned unchanged (the method never assigns to `self`), and a
second call with identical inputs — starting from the state the first call
returned — yields a result identical to the first call's. -/
theorem C8_pure_deterministic {μ : Type} (h : Handler) (ds : DescriptorSource μ)
    (s : String) (P : List String) :
    (process_multiple_properties h ds s P).1 = h ∧
    (process_multiple_properties (process_multiple_properties h ds s P).1
        ds s P).2 =
      (process_multiple_properties h ds s P).2 :=
  ⟨process_fst h ds s P, by rw [process_fst h ds s P]⟩

/-- C9: the success and captured-exception return values of
`process_multiple_properties` have different top-level Python types: success
returns a bare dict (line 63), the except branch returns a one-element list
wrapping an error dict (line 67), so the service layer's
`result.get("status")` (`main.py` line 70) works on the former and raises
`AttributeError` on the latter — a caller treating the return value
uniformly as a record cannot handle the error case.  The final conjunct
evaluates the success shape on a concrete input. -/
theorem C9_return_shape_mismatch (r : CompoundResult) (smi e : String) :
    pyTypeOf (.record r) = "dict" ∧
    exceptBranch smi e =
      .errorList { smiles := smi, status := "error", results := [],
                   error := some e } ∧
    pyTypeOf (exceptBranch smi e) = "list" ∧
    resultGetStatus (.record r) = .ok (some r.status) ∧
    resultGetStatus (exceptBranch smi e) =
      .error "AttributeError: list object has no attribute get" ∧
    (process_multiple_properties demoHandler demoDS "c1ccccc1" ["WLogP"]).2 =
      .ok (.record { smiles := "c1ccccc1", status := "success",
                     results := [("WLogP", { property := "WLogP",
                                             status := "success",
                                             results := some 1.69,
                                             error := none })],
                     error := none }) := by
  refine ⟨rfl, rfl, rfl, rfl, rfl, ?_⟩
  simp [process_multiple_properties, demoDS, demoHandler, AVAILABLE_PROPERTIES,
    batchPreds, buildResults, dictInsert, dictLookup, pyFloatOf, List.filter]
  norm_num [round2, roundHalfEven]

/-- C10: `process_multiple_properties` is insensitive to duplicates in the
requested property list — deduplicating the request (keeping first
occurrences, as a Python dict would) yields the same return value — and the
`results` mapping of a success record never holds more than one entry per
property name. -/
theorem C10_duplicate_insensitive {μ : Type} (h : Handler)
    (ds : DescriptorSource μ) (s : String) (P : List String) :
    process_multiple_properties h ds s (firstDedup P) =
      process_multiple_properties h ds s P ∧
    ∀ r, (process_multiple_properties h ds s P).2 = .ok (.record r) →
      (r.results.map Prod.fst).Nodup := by
  constructor
  · by_cases hs : s = ""
    · subst hs; rw [process_empty, process_empty]
    · cases hm : ds.molFromSmiles s with
      | none =>
        rw [process_parse_failure h ds s (firstDedup P) hs hm,
          process_parse_failure h ds s P hs hm]
      | some mol =>
        rw [process_success h ds s (firstDedup P) mol hs hm,
          process_success h ds s P mol hs hm]
        unfold classifyRecord
        refine congrArg (fun z => (h, Except.ok (PMPReturn.record
          { smiles := s, status := "success", results := z,
            error := none }))) ?_
        rw [← firstDedup_filter]
        exact foldl_dictInsert_firstDedup _ _
  · intro r hr
    by_cases hs : s = ""
    · subst hs
      rw [process_empty] at hr
      simp at hr
    · cases hm : ds.molFromSmiles s with
      | none =>
        rw [process_parse_failure h ds s P hs hm] at hr
        simp at hr
      | some mol =>
        rw [process_success h ds s P mol hs hm] at hr
        simp only [Except.ok.injEq, PMPReturn.record.injEq] at hr
        rw [← hr]
        unfold classifyRecord
        simp only [foldl_dictInsert_keys, List.map_nil, List.nil_append]
        exact firstDedupAux_nodup _ _

/-- C10 (witness): the theorem applied to `"CCO"` with the duplicated
request `["TPSA", "BBB", "TPSA"]`: deduplication does not change the
result, and the concrete success record's key list is duplicate-free. -/
theorem C10_witness :
    (process_multiple_properties demoHandler demoDS "CCO"
        (firstDedup ["TPSA", "BBB", "TPSA"]) =
      process_multiple_properties demoHandler demoDS "CCO"
        ["TPSA", "BBB", "TPSA"]) ∧
    (([("TPSA", successResult "TPSA" 20.23),
       ("BBB", successResult "BBB" 0)].map Prod.fst).Nodup) := by
  refine ⟨(C10_duplicate_insensitive demoHandler demoDS "CCO"
    ["TPSA", "BBB", "TPSA"]).1, ?_⟩
  refine (C10_duplicate_insensitive demoHandler demoDS "CCO"
    ["TPSA", "BBB", "TPSA"]).2
    { smiles := "CCO", status := "success",
      results := [("TPSA", successResult "TPSA" 20.23),
                  ("BBB", successResult "BBB" 0)],
      error := none } ?_
  simp [process_multiple_properties, demoDS, demoHandler, AVAILABLE_PROPERTIES,
    batchPreds, buildResults, dictInsert, dictLookup, pyFloatOf, List.filter,
    successResult]
  norm_num [round2, roundHalfEven, within, insideEO, onBoundaryB, polyEdges,
    rayCrosses, onSegment, unitSquare, List.filter, List.any]

end BoiledEgg
